import Mathlib

/-!
Verification of the FastAPI yt-dlp download facade (`src/main.py`).

The program keeps two in-memory dictionaries, `progress_store : dict[str, float]`
and `file_store : dict[str, str]`, mutated by a progress hook, the
`start_download` orchestrator, and the three HTTP endpoints.  We embed the
dictionaries as functions `String → Option _`, Python floats as rationals,
and the observable mutations as an explicit step relation on a system state.
-/

namespace YtApi

/-- The constant `DOWNLOAD_DIR = "/tmp/downloads"` from `main.py`. -/
def DOWNLOAD_DIR : String := "/tmp/downloads"

/-- The request body of `POST /download` (`class DownloadRequest`). -/
structure DownloadRequest where
  url : String
  type : String
  quality : String
deriving DecidableEq, Repr

/-- A Python `dict[str, α]`, embedded as a partial map. -/
def Store (α : Type) : Type := String → Option α

/-- Assignment `store[k] = v`. -/
def Store.set (s : Store α) (k : String) (v : α) : Store α :=
  fun k' => if k' = k then some v else s k'

/-- Lookup `store.get(k, d)`. -/
def Store.getD (s : Store α) (k : String) (d : α) : α :=
  (s k).getD d

/-- Removal `store.pop(k, None)` (the mutation part). -/
def Store.pop (s : Store α) (k : String) : Store α :=
  fun k' => if k' = k then none else s k'

/-- The empty dictionary. -/
def Store.empty : Store α := fun _ => none

/-! ### Filename sanitization (`safe_filename`) -/

/-- The character class of `re.sub(r'[\\/:*?"<>|]', '_', name)`. -/
def badChar (c : Char) : Bool :=
  c = '\\' || c = '/' || c = ':' || c = '*' || c = '?' ||
  c = '"' || c = '<' || c = '>' || c = '|'

/-- The helper `safe_filename` from `main.py`: `re.sub` with a single-character class
replaces each matching character by `'_'` and leaves every other character
unchanged, i.e. it is a character-wise map. -/
def safe_filename (name : String) : String :=
  String.mk (name.toList.map fun c => if badChar c then '_' else c)

/-! ### Parsing the percent string (`progress_hook`) -/

/-- Numeric value of a digit list (most significant first). -/
def digitsVal (cs : List Char) : ℕ :=
  cs.foldl (fun a c => a * 10 + (c.toNat - 48)) 0

/-- Python `float(s)` restricted to plain decimal literals
`[+-] digits [. digits]` (the shape `_percent_str` values take after
cleaning); any other string raises `ValueError`, embedded as `none`.
Exponents, `inf`/`nan` and underscores are not modelled. -/
def pyFloat (s : String) : Option ℚ :=
  let go : List Char → Option ℚ := fun cs =>
    let intPart := cs.takeWhile Char.isDigit
    let rest := cs.dropWhile Char.isDigit
    match rest with
    | [] => if intPart.isEmpty then none else some (digitsVal intPart)
    | '.' :: frac =>
        if frac.all Char.isDigit && !(intPart.isEmpty && frac.isEmpty) then
          some ((digitsVal intPart : ℚ) + (digitsVal frac : ℚ) / 10 ^ frac.length)
        else none
    | _ => none
  match s.toList with
  | '-' :: cs => (go cs).map (fun q => -q)
  | '+' :: cs => go cs
  | cs => go cs

/-- Python `str.replace("%", "")`: removes every `'%'`. -/
def removePercent (s : String) : String :=
  String.mk (s.toList.filter fun c => c ≠ '%')

/-- Python `str.strip()`: drops whitespace from both ends. -/
def pyStrip (s : String) : String :=
  String.mk (((s.toList.dropWhile Char.isWhitespace).reverse.dropWhile
    Char.isWhitespace).reverse)

/-- The event dictionary yt-dlp passes to a progress hook, restricted to the
keys `main.py` reads: `d["status"]` and the optional `d["_percent_str"]`. -/
structure HookDict where
  status : String
  percent_str : Option String
deriving DecidableEq, Repr

/-- The cleaned percent string of `progress_hook`:
`d.get("_percent_str", "0%").replace("%", "").strip()`. -/
def percentClean (d : HookDict) : String :=
  pyStrip (removePercent (d.percent_str.getD "0%"))

/-- The inner `hook(d)` of `progress_hook(task_id)` acting on
`progress_store`: on `"downloading"` it stores the parsed percent, falling
back to the previous value (or `0.0`) when `float(...)` raises; on
`"finished"` it stores `99.0`; any other status leaves the store unchanged. -/
def hook (task_id : String) (d : HookDict) (ps : Store ℚ) : Store ℚ :=
  if d.status = "downloading" then
    match pyFloat (percentClean d) with
    | some v => ps.set task_id v
    | none => ps.set task_id (ps.getD task_id 0)
  else if d.status = "finished" then
    ps.set task_id 99
  else ps

/-! ### `ydl_opts` construction in `start_download` -/

/-- One entry of the `postprocessors` list. -/
structure PostProcessor where
  key : String
  preferredcodec : String
  preferredquality : String
deriving DecidableEq, Repr

/-- The parts of `ydl_opts` that depend on the request. -/
structure YdlOpts where
  outtmpl : String
  format : String
  postprocessors : List PostProcessor
deriving DecidableEq, Repr

/-- The `ydl_opts` assembled by `start_download` for a task and request
(the request-dependent fields). -/
def build_opts (task_id : String) (req : DownloadRequest) : YdlOpts where
  outtmpl := DOWNLOAD_DIR ++ "/" ++ task_id ++ "_%(title)s.%(ext)s"
  format :=
    if req.type = "video" then
      if req.quality = "1080" then "bestvideo[height<=1080]+bestaudio/best"
      else if req.quality = "720" then "bestvideo[height<=720]+bestaudio/best"
      else "bestvideo+bestaudio/best"
    else "bestaudio/best"
  postprocessors :=
    if req.type = "video" then []
    else [{ key := "FFmpegExtractAudio", preferredcodec := "mp3",
            preferredquality := req.quality }]

/-! ### `os.path` helpers used by `start_download` / `download_file` -/

/-- Index of the last occurrence of `c` in `cs`, if any. -/
def lastIdxOf (cs : List Char) (c : Char) : Option ℕ :=
  match cs.reverse.findIdx? (· = c) with
  | some j => some (cs.length - 1 - j)
  | none => none

/-- Python `os.path.splitext(p)[0]` (POSIX): cut at the last `'.'` provided it lies
after the last `'/'` and some non-dot character of the basename precedes it
(leading dots of the basename never start an extension). -/
def splitext_root (p : String) : String :=
  let cs := p.toList
  let start : ℕ := match lastIdxOf cs '/' with
    | some i => i + 1
    | none => 0
  match lastIdxOf cs '.' with
  | some d =>
      if start ≤ d && ((cs.drop start).take (d - start)).any (fun c => c ≠ '.') then
        String.mk (cs.take d)
      else p
  | none => p

/-- Python `os.path.basename(p)` (POSIX): the part after the last `'/'`. -/
def basename (p : String) : String :=
  match lastIdxOf p.toList '/' with
  | some i => String.mk (p.toList.drop (i + 1))
  | none => p

/-- The `final_path` computed by `start_download` from the library's
`ydl.prepare_filename(info)` result: drop the extension, then append
`".mp4"` for video and `".mp3"` otherwise. -/
def final_path (req : DownloadRequest) (prepared : String) : String :=
  let base_path := splitext_root prepared
  if req.type = "video" then base_path ++ ".mp4" else base_path ++ ".mp3"

/-! ### System state and step relation -/

/-- The observable state: the two module-level dictionaries plus the set of
files present on disk (`os.path.exists`). -/
structure Sys where
  progress_store : Store ℚ
  file_store : Store String
  disk : String → Bool

/-- Initial state: both dictionaries empty; the disk contents are an
arbitrary parameter (other processes own `/tmp`). -/
def Sys.init (d : String → Bool) : Sys where
  progress_store := Store.empty
  file_store := Store.empty
  disk := d

/-- Result of `GET /download-file/{task_id}`: either HTTP 404
(`"File not available"`) or a `FileResponse` with a path and filename. -/
inductive FetchResult where
  | notFound
  | file (path : String) (filename : String)
deriving DecidableEq, Repr

/-- The endpoint body `download_file` from `main.py`: look up `file_store`, 404 when the path
is missing, falsy, or absent from disk; otherwise schedule `os.remove(path)`,
pop both store entries and return the file.  The scheduled removal runs right
after the response is sent and is folded into the resulting state. -/
def download_file (s : Sys) (task_id : String) : FetchResult × Sys :=
  match s.file_store task_id with
  | none => (FetchResult.notFound, s)
  | some path =>
      if path = "" || !s.disk path then (FetchResult.notFound, s)
      else
        (FetchResult.file path (basename path),
         { progress_store := s.progress_store.pop task_id
           file_store := s.file_store.pop task_id
           disk := fun p => if p = path then false else s.disk p })

/-- The endpoint `GET /progress/{task_id}`: `progress_store.get(task_id, 0.0)`. -/
def progressEndpoint (s : Sys) (task_id : String) : ℚ :=
  s.progress_store.getD task_id 0

/-- The events that mutate the shared state, each embedding one atomic
block of `main.py`:
  * `submit t` — the body of `POST /download` for fresh id `t`
    (`progress_store[t] = 0.0`, background task scheduled);
  * `hookEv t d` — one progress-hook invocation during the task's run;
  * `complete t p` — the success tail of `start_download`
    (`file_store[t] = p; progress_store[t] = 100.0`, the library having
    written `p` to disk);
  * `fail t` — the `except` branch (`progress_store[t] = -1;
    file_store.pop(t, None); raise`), after which the exception propagates
    and the run produces no further events;
  * `fetch t` — `GET /download-file/{t}`. -/
inductive Event where
  | submit (task_id : String)
  | hookEv (task_id : String) (d : HookDict)
  | complete (task_id : String) (path : String)
  | fail (task_id : String)
  | fetch (task_id : String)
deriving DecidableEq, Repr

/-- The task id an event concerns. -/
def Event.task : Event → String
  | .submit t => t
  | .hookEv t _ => t
  | .complete t _ => t
  | .fail t => t
  | .fetch t => t

/-- The state transformation of one event. -/
def step (s : Sys) : Event → Sys
  | .submit t => { s with progress_store := s.progress_store.set t 0 }
  | .hookEv t d => { s with progress_store := hook t d s.progress_store }
  | .complete t p =>
      { progress_store := (s.progress_store.set t 100)
        file_store := s.file_store.set t p
        disk := fun q => if q = p then true else s.disk q }
  | .fail t =>
      { s with progress_store := s.progress_store.set t (-1)
               file_store := s.file_store.pop t }
  | .fetch t => (download_file s t).2

/-- Run a list of events. -/
def run (s : Sys) (es : List Event) : Sys :=
  es.foldl step s

/-! ### Well-formed traces

A task id is a fresh UUID, submitted once; its hooks fire only inside its
`extract_info` call, which ends in exactly one `complete` or `fail`; the
client may fetch at any time.  We record this as a phase automaton per id. -/

/-- Lifecycle phase of one task id. -/
inductive Phase where
  | idle
  | running
  | done
  | failed
deriving DecidableEq, Repr

/-- Allowed phase transition of the event's own task
(`fetch` is a client action, legal in every phase). -/
def phaseNext (ph : Phase) : Event → Option Phase
  | .submit _ => match ph with | .idle => some .running | _ => none
  | .hookEv _ _ => match ph with | .running => some .running | _ => none
  | .complete _ _ => match ph with | .running => some .done | _ => none
  | .fail _ => match ph with | .running => some .failed | _ => none
  | .fetch _ => some ph

/-- A phase for every task id. -/
def Phases : Type := String → Phase

/-- Advance the phase map by one event, when legal. -/
def phasesNext (P : Phases) (e : Event) : Option Phases :=
  (phaseNext (P e.task) e).map
    (fun ph => fun u => if u = e.task then ph else P u)

/-- Well-formedness `Wf P es Q`: the event list `es` is a legal interleaving of task
lifecycles taking the phase map from `P` to `Q`. -/
inductive Wf : Phases → List Event → Phases → Prop
  | nil (P : Phases) : Wf P [] P
  | cons {P P' Q : Phases} {e : Event} {es : List Event} :
      phasesNext P e = some P' → Wf P' es Q → Wf P (e :: es) Q

/-- Every id starts idle. -/
def allIdle : Phases := fun _ => Phase.idle

/-- What the two dictionaries say about a task id in each phase:
before submission both entries are absent; while running no result path is
recorded; after success either the path is recorded with progress `100` or a
fetch has already cleared it; after failure progress is the sentinel `-1`
and the path entry is absent. -/
def phaseInv (s : Sys) (t : String) : Phase → Prop
  | .idle => s.progress_store t = none ∧ s.file_store t = none
  | .running => s.file_store t = none
  | .done => s.file_store t = none ∨ s.progress_store t = some 100
  | .failed => s.progress_store t = some (-1) ∧ s.file_store t = none

/-- A state with one completed task `"t"` whose output file is on disk;
used to instantiate theorems at a concrete input. -/
def doneState : Sys where
  progress_store := Store.empty.set "t" 100
  file_store := Store.empty.set "t" "/tmp/downloads/t_v.mp4"
  disk := fun q => q == "/tmp/downloads/t_v.mp4"

/-! ### Basic store lemmas -/

theorem Store.set_self (s : Store α) (k : String) (v : α) : (s.set k v) k = some v := by
  simp [Store.set]

theorem Store.set_other (s : Store α) {k k' : String} (v : α) (h : k' ≠ k) :
    (s.set k v) k' = s k' := by
  simp [Store.set, h]

theorem Store.pop_self (s : Store α) (k : String) : (s.pop k) k = none := by
  simp [Store.pop]

theorem Store.pop_other (s : Store α) {k k' : String} (h : k' ≠ k) :
    (s.pop k) k' = s k' := by
  simp [Store.pop, h]

/-- The hook only ever writes the key of its own task. -/
theorem hook_other {u t : String} (d : HookDict) (ps : Store ℚ) (h : t ≠ u) :
    hook u d ps t = ps t := by
  unfold hook
  cases hpf : pyFloat (percentClean d) <;>
    simp only [hpf] <;> split <;>
      first
        | exact Store.set_other _ _ h
        | split <;>
            first
              | exact Store.set_other _ _ h
              | rfl

/-- A fetch for an id with no stored path is a 404 and changes nothing. -/
theorem download_file_no_entry {s : Sys} {t : String} (h : s.file_store t = none) :
    download_file s t = (FetchResult.notFound, s) := by
  simp [download_file, h]

/-- A fetch never touches another task's progress entry. -/
theorem download_file_progress_other (s : Sys) {u t : String} (h : t ≠ u) :
    (download_file s u).2.progress_store t = s.progress_store t := by
  unfold download_file
  cases hf : s.file_store u with
  | none => rfl
  | some p =>
      by_cases hc : (decide (p = "") || !s.disk p) = true
      · simp [hc]
      · simp [hc, Store.pop_other _ h]

/-- A fetch never touches another task's result-path entry. -/
theorem download_file_file_other (s : Sys) {u t : String} (h : t ≠ u) :
    (download_file s u).2.file_store t = s.file_store t := by
  unfold download_file
  cases hf : s.file_store u with
  | none => rfl
  | some p =>
      by_cases hc : (decide (p = "") || !s.disk p) = true
      · simp [hc]
      · simp [hc, Store.pop_other _ h]

/-- An event leaves the progress entries of other task ids unchanged. -/
theorem step_progress_frame (s : Sys) (e : Event) {t : String} (h : t ≠ e.task) :
    (step s e).progress_store t = s.progress_store t := by
  cases e with
  | submit u => exact Store.set_other _ _ h
  | hookEv u d => exact hook_other _ _ h
  | complete u p => exact Store.set_other _ _ h
  | fail u => exact Store.set_other _ _ h
  | fetch u => exact download_file_progress_other s h

/-- An event leaves the result-path entries of other task ids unchanged. -/
theorem step_file_frame (s : Sys) (e : Event) {t : String} (h : t ≠ e.task) :
    (step s e).file_store t = s.file_store t := by
  cases e with
  | submit u => rfl
  | hookEv u d => rfl
  | complete u p => exact Store.set_other _ _ h
  | fail u => exact Store.pop_other _ h
  | fetch u => exact download_file_file_other s h

/-! ### The lifecycle invariant tying phases to store contents -/

/-- The invariant `phaseInv` only looks at the two entries of the given task id. -/
theorem phaseInv_congr {s s' : Sys} {t : String}
    (hp : s'.progress_store t = s.progress_store t)
    (hf : s'.file_store t = s.file_store t) {ph : Phase}
    (h : phaseInv s t ph) : phaseInv s' t ph := by
  cases ph <;> simp_all [phaseInv]

/-- One legal event preserves the lifecycle invariant for every task id. -/
theorem phaseInv_step {s : Sys} {P P' : Phases} {e : Event}
    (hP : phasesNext P e = some P') (hinv : ∀ t, phaseInv s t (P t)) :
    ∀ t, phaseInv (step s e) t (P' t) := by
  rcases Option.map_eq_some'.mp hP with ⟨ph, hph, hP'⟩
  subst hP'
  intro t
  by_cases ht : t = e.task
  · subst ht
    show phaseInv (step s e) e.task (if e.task = e.task then ph else P e.task)
    rw [if_pos rfl]
    cases e with
    | submit u =>
        have hph' : phaseNext (P u) (Event.submit u) = some ph := hph
        have h := hinv u
        cases hPu : P u with
        | idle =>
            rw [hPu] at hph' h
            cases hph'
            exact h.2
        | running => rw [hPu] at hph'; exact Option.noConfusion hph'
        | done => rw [hPu] at hph'; exact Option.noConfusion hph'
        | failed => rw [hPu] at hph'; exact Option.noConfusion hph'
    | hookEv u d =>
        have hph' : phaseNext (P u) (Event.hookEv u d) = some ph := hph
        have h := hinv u
        cases hPu : P u with
        | running =>
            rw [hPu] at hph' h
            cases hph'
            exact h
        | idle => rw [hPu] at hph'; exact Option.noConfusion hph'
        | done => rw [hPu] at hph'; exact Option.noConfusion hph'
        | failed => rw [hPu] at hph'; exact Option.noConfusion hph'
    | complete u p =>
        have hph' : phaseNext (P u) (Event.complete u p) = some ph := hph
        cases hPu : P u with
        | running =>
            rw [hPu] at hph'
            cases hph'
            exact Or.inr (Store.set_self _ _ _)
        | idle => rw [hPu] at hph'; exact Option.noConfusion hph'
        | done => rw [hPu] at hph'; exact Option.noConfusion hph'
        | failed => rw [hPu] at hph'; exact Option.noConfusion hph'
    | fail u =>
        have hph' : phaseNext (P u) (Event.fail u) = some ph := hph
        cases hPu : P u with
        | running =>
            rw [hPu] at hph'
            cases hph'
            exact ⟨Store.set_self _ _ _, Store.pop_self _ _⟩
        | idle => rw [hPu] at hph'; exact Option.noConfusion hph'
        | done => rw [hPu] at hph'; exact Option.noConfusion hph'
        | failed => rw [hPu] at hph'; exact Option.noConfusion hph'
    | fetch u =>
        have hph' : some (P u) = some ph := hph
        cases hph'
        have h := hinv u
        show phaseInv (download_file s u).2 u (P u)
        cases hf : s.file_store u with
        | none => rw [download_file_no_entry hf]; exact h
        | some p =>
            cases hPu : P u with
            | idle =>
                rw [hPu] at h
                rw [h.2] at hf
                exact Option.noConfusion hf
            | running =>
                rw [hPu] at h
                rw [h] at hf
                exact Option.noConfusion hf
            | failed =>
                rw [hPu] at h
                rw [h.2] at hf
                exact Option.noConfusion hf
            | done =>
                rw [hPu] at h
                rcases h with h | h
                · rw [h] at hf
                  exact Option.noConfusion hf
                · by_cases hc : (decide (p = "") || !s.disk p) = true
                  · have hs : (download_file s u).2 = s := by
                      simp [download_file, hf, hc]
                    rw [hs]
                    exact Or.inr h
                  · have hn : (download_file s u).2.file_store u = none := by
                      simp [download_file, hf, hc, Store.pop_self]
                    exact Or.inl hn
  · show phaseInv (step s e) t (if t = e.task then ph else P t)
    rw [if_neg ht]
    exact phaseInv_congr (step_progress_frame s e ht) (step_file_frame s e ht) (hinv t)

/-- Along any well-formed trace the lifecycle invariant holds. -/
theorem run_inv {P Q : Phases} {es : List Event} (hwf : Wf P es Q) :
    ∀ {s : Sys}, (∀ t, phaseInv s t (P t)) → ∀ t, phaseInv (run s es) t (Q t) := by
  induction hwf with
  | nil P => intro s h t; exact h t
  | cons hP hwf ih => intro s h t; exact ih (phaseInv_step hP h) t

/-- The initial state satisfies the invariant with every id idle. -/
theorem init_inv (d : String → Bool) : ∀ t, phaseInv (Sys.init d) t (allIdle t) :=
  fun _ => ⟨rfl, rfl⟩

/-- The effect of a fetch that finds a stored, non-empty path present on
disk: return the file, schedule its removal, and pop both store entries. -/
theorem download_file_success_eq {s : Sys} {t p : String}
    (hf : s.file_store t = some p) (hc : (decide (p = "") || !s.disk p) = false) :
    download_file s t =
      (FetchResult.file p (basename p),
       { progress_store := s.progress_store.pop t
         file_store := s.file_store.pop t
         disk := fun q => if q = p then false else s.disk q }) := by
  simp [download_file, hf, hc]

/-- A fetch that does not 404 found a stored, non-empty path on disk. -/
theorem download_file_success {s : Sys} {t : String}
    (h : (download_file s t).1 ≠ FetchResult.notFound) :
    ∃ p, s.file_store t = some p ∧ (decide (p = "") || !s.disk p) = false ∧
      download_file s t =
        (FetchResult.file p (basename p),
         { progress_store := s.progress_store.pop t
           file_store := s.file_store.pop t
           disk := fun q => if q = p then false else s.disk q }) := by
  cases hf : s.file_store t with
  | none =>
      exact absurd (show (download_file s t).1 = FetchResult.notFound by
        rw [download_file_no_entry hf]) h
  | some p =>
      by_cases hc : (decide (p = "") || !s.disk p) = true
      · exact absurd (show (download_file s t).1 = FetchResult.notFound by
          simp [download_file, hf, hc]) h
      · have hc' : (decide (p = "") || !s.disk p) = false := by
          cases hcv : (decide (p = "") || !s.disk p)
          · rfl
          · exact absurd hcv hc
        exact ⟨p, rfl, hc', download_file_success_eq hf hc'⟩

/-- Hook with status `"downloading"` and a percent string that parses:
the parsed value is stored. -/
theorem hook_downloading_parsed {t : String} {d : HookDict} (ps : Store ℚ) {v : ℚ}
    (hs : d.status = "downloading") (hp : pyFloat (percentClean d) = some v) :
    hook t d ps t = some v := by
  unfold hook
  rw [if_pos hs, hp]
  exact Store.set_self _ _ _

/-- Hook with status `"downloading"` and a percent string that fails to
parse: the previously stored value is retained. -/
theorem hook_downloading_failed {t : String} {d : HookDict} {ps : Store ℚ} {v : ℚ}
    (hs : d.status = "downloading") (hp : pyFloat (percentClean d) = none)
    (hv : ps t = some v) :
    hook t d ps t = some v := by
  unfold hook
  rw [if_pos hs, hp]
  show (ps.set t (ps.getD t 0)) t = some v
  rw [Store.set_self]
  show some ((ps t).getD 0) = some v
  rw [hv]
  rfl

/-- Hook with status `"finished"`: `99.0` is stored. -/
theorem hook_finished {t : String} {d : HookDict} (ps : Store ℚ)
    (hs : d.status = "finished") :
    hook t d ps t = some 99 := by
  unfold hook
  rw [if_neg (fun hdl => by rw [hs] at hdl; exact absurd hdl (by decide)),
    if_pos hs]
  exact Store.set_self _ _ _

/-- Starting from a state where a task has failed (`progress = -1`, no
result-path entry), any further events that concern this task only through
fetches leave both entries untouched. -/
theorem run_preserves_failed {t : String} :
    ∀ (es : List Event) (s : Sys),
      (∀ e ∈ es, e.task = t → e = Event.fetch t) →
      s.progress_store t = some (-1) → s.file_store t = none →
      (run s es).progress_store t = some (-1) ∧ (run s es).file_store t = none := by
  intro es
  induction es with
  | nil => intro s _ hp hf; exact ⟨hp, hf⟩
  | cons e es ih =>
      intro s hes hp hf
      have hstep : (step s e).progress_store t = some (-1) ∧
          (step s e).file_store t = none := by
        by_cases ht : e.task = t
        · have he := hes e (List.mem_cons_self e es) ht
          subst he
          show ((download_file s t).2.progress_store t = some (-1)) ∧
            ((download_file s t).2.file_store t = none)
          rw [download_file_no_entry hf]
          exact ⟨hp, hf⟩
        · rw [step_progress_frame s e (fun hh => ht hh.symm),
            step_file_frame s e (fun hh => ht hh.symm)]
          exact ⟨hp, hf⟩
      exact ih (step s e) (fun e' he' ht' => hes e' (List.mem_cons_of_mem e he') ht')
        hstep.1 hstep.2

/-! ### Claims -/

/-- C1 (amended): a stored result path implies stored progress `100` at
every state reached by a well-formed trace; the success tail of
`start_download` records the path and progress `100` together; the failure
branch removes the path entry and sets progress `-1`; and a successful
fetch removes both entries.  (The converse direction of the original claim
fails: a `"downloading"` hook reporting percent `100` stores progress `100`
while no result path is recorded — see the counterexample.) -/
theorem C1_result_path_only_if_progress_100 (d : String → Bool) (es : List Event)
    (Q : Phases) (hwf : Wf allIdle es Q) :
    (∀ t p, (run (Sys.init d) es).file_store t = some p →
        (run (Sys.init d) es).progress_store t = some 100)
  ∧ (∀ s t p, (step s (Event.complete t p)).file_store t = some p ∧
        (step s (Event.complete t p)).progress_store t = some 100)
  ∧ (∀ s t, (step s (Event.fail t)).file_store t = none ∧
        (step s (Event.fail t)).progress_store t = some (-1))
  ∧ (∀ s t, (download_file s t).1 ≠ FetchResult.notFound →
        (download_file s t).2.file_store t = none ∧
        (download_file s t).2.progress_store t = none) := by
  refine ⟨?_, ?_, ?_, ?_⟩
  · intro t p hfp
    have h := run_inv hwf (init_inv d) t
    cases hQ : Q t <;> rw [hQ] at h
    · rw [h.2] at hfp; exact Option.noConfusion hfp
    · rw [h] at hfp; exact Option.noConfusion hfp
    · rcases h with h | h
      · rw [h] at hfp; exact Option.noConfusion hfp
      · exact h
    · rw [h.2] at hfp; exact Option.noConfusion hfp
  · intro s t p
    exact ⟨Store.set_self _ _ _, Store.set_self _ _ _⟩
  · intro s t
    exact ⟨Store.pop_self _ _, Store.set_self _ _ _⟩
  · intro s t hnf
    rcases download_file_success hnf with ⟨p, hf, hc, heq⟩
    rw [heq]
    exact ⟨Store.pop_self _ _, Store.pop_self _ _⟩

/-- C1 witness: on the well-formed trace submit-then-complete, the recorded
path forces progress `100`. -/
theorem C1_witness :
    (run (Sys.init fun _ => false)
      [Event.submit "a", Event.complete "a" "/tmp/downloads/a_v.mp4"]).progress_store "a"
        = some 100 :=
  (C1_result_path_only_if_progress_100 (fun _ => false)
      [Event.submit "a", Event.complete "a" "/tmp/downloads/a_v.mp4"] _
      (Wf.cons rfl (Wf.cons rfl (Wf.nil _)))).1 "a" "/tmp/downloads/a_v.mp4" (by decide)

/-- C1 counterexample: on the well-formed trace where the hook reports
percent `100` while downloading, stored progress is `100` yet no result
path is recorded, refuting the stated if-and-only-if. -/
theorem C1_counterexample :
    (∃ Q, Wf allIdle
      [Event.submit "t", Event.hookEv "t" ⟨"downloading", some "100%"⟩] Q)
  ∧ (run (Sys.init fun _ => false)
      [Event.submit "t", Event.hookEv "t" ⟨"downloading", some "100%"⟩]).progress_store "t"
        = some 100
  ∧ (run (Sys.init fun _ => false)
      [Event.submit "t", Event.hookEv "t" ⟨"downloading", some "100%"⟩]).file_store "t"
        = none :=
  ⟨⟨_, Wf.cons rfl (Wf.cons rfl (Wf.nil _))⟩, by decide, rfl⟩

/-- C2 (amended): a progress-hook invocation whose percent string fails to
parse retains the previously stored value, so such an invocation never
lowers stored progress; general monotonicity does not hold, since a later
hook may store a lower successfully-parsed percent (see the
counterexample). -/
theorem C2_parse_failure_retains_previous (t : String) (d : HookDict)
    (ps : Store ℚ) (v : ℚ) (hs : d.status = "downloading")
    (hp : pyFloat (percentClean d) = none) (hv : ps t = some v) :
    hook t d ps t = some v :=
  hook_downloading_failed hs hp hv

/-- C2 witness: an unparseable percent string (`"N/A%"`) leaves the stored
`50` in place. -/
theorem C2_witness :
    hook "t" ⟨"downloading", some "N/A%"⟩ (Store.empty.set "t" 50) "t" = some 50 :=
  C2_parse_failure_retains_previous "t" ⟨"downloading", some "N/A%"⟩
    (Store.empty.set "t" 50) 50 rfl (by decide) (by decide)

/-- C2 counterexample: on a well-formed trace the hook stores `50` and then
`10`; the stored sequence regresses although neither `100` nor `-1` was
reached, refuting monotonicity as stated. -/
theorem C2_counterexample :
    (∃ Q, Wf allIdle
      [Event.submit "t", Event.hookEv "t" ⟨"downloading", some " 50%"⟩,
       Event.hookEv "t" ⟨"downloading", some " 10%"⟩] Q)
  ∧ (run (Sys.init fun _ => false)
      [Event.submit "t", Event.hookEv "t" ⟨"downloading", some " 50%"⟩]).progress_store "t"
        = some 50
  ∧ (run (Sys.init fun _ => false)
      [Event.submit "t", Event.hookEv "t" ⟨"downloading", some " 50%"⟩,
       Event.hookEv "t" ⟨"downloading", some " 10%"⟩]).progress_store "t"
        = some 10
  ∧ (10 : ℚ) < 50 ∧ (50 : ℚ) ≠ 100 ∧ (50 : ℚ) ≠ -1 :=
  ⟨⟨_, Wf.cons rfl (Wf.cons rfl (Wf.cons rfl (Wf.nil _)))⟩,
    by decide, by decide, by decide, by decide, by decide⟩

/-- C3: after the `except` branch of `start_download` runs for a task
(modelling any exception during the orchestrated download, which then
propagates so that the run emits no further events for this task), progress
is `-1` and no result-path entry exists; any later events touching this
task only through fetches leave that so, and a subsequent fetch returns the
404 not-found result. -/
theorem C3_failure_is_terminal (s : Sys) (t : String) (es : List Event)
    (hes : ∀ e ∈ es, e.task = t → e = Event.fetch t) :
    (step s (Event.fail t)).progress_store t = some (-1)
  ∧ (step s (Event.fail t)).file_store t = none
  ∧ (run (step s (Event.fail t)) es).progress_store t = some (-1)
  ∧ (run (step s (Event.fail t)) es).file_store t = none
  ∧ (download_file (run (step s (Event.fail t)) es) t).1 = FetchResult.notFound := by
  have h1 : (step s (Event.fail t)).progress_store t = some (-1) := Store.set_self _ _ _
  have h2 : (step s (Event.fail t)).file_store t = none := Store.pop_self _ _
  have h3 := run_preserves_failed es (step s (Event.fail t)) hes h1 h2
  refine ⟨h1, h2, h3.1, h3.2, ?_⟩
  rw [download_file_no_entry h3.2]

/-- C3 witness: a concrete failed task, later fetched once, keeps progress
`-1` and 404s. -/
theorem C3_witness :
    (run (step (Sys.init fun _ => false) (Event.fail "t")) [Event.fetch "t"]).progress_store "t"
        = some (-1)
  ∧ (download_file (run (step (Sys.init fun _ => false) (Event.fail "t"))
        [Event.fetch "t"]) "t").1 = FetchResult.notFound :=
  ⟨(C3_failure_is_terminal (Sys.init fun _ => false) "t" [Event.fetch "t"]
      (by decide)).2.2.1,
   (C3_failure_is_terminal (Sys.init fun _ => false) "t" [Event.fetch "t"]
      (by decide)).2.2.2.2⟩

/-- C4: the fetch endpoint 404s exactly when no path is stored for the id
or the stored path is absent from disk (given the `os.path.exists` fact
that the empty path never exists); otherwise it returns the file with its
basename and pops both store entries, so an immediately repeated fetch
404s. -/
theorem C4_fetch_404_iff_and_single_delivery (s : Sys) (t : String)
    (hd : s.disk "" = false) :
    ((download_file s t).1 = FetchResult.notFound ↔
      s.file_store t = none ∨ ∃ p, s.file_store t = some p ∧ s.disk p = false)
  ∧ (∀ p, s.file_store t = some p → s.disk p = true →
      (download_file s t).1 = FetchResult.file p (basename p)
    ∧ (download_file s t).2.file_store t = none
    ∧ (download_file s t).2.progress_store t = none
    ∧ (download_file (download_file s t).2 t).1 = FetchResult.notFound) := by
  constructor
  · constructor
    · intro hnf
      cases hf : s.file_store t with
      | none => exact Or.inl rfl
      | some p =>
          right
          refine ⟨p, rfl, ?_⟩
          cases hdp : s.disk p with
          | false => rfl
          | true =>
              have hp0 : p ≠ "" := by
                intro hpe
                rw [hpe, hd] at hdp
                exact Bool.noConfusion hdp
              have hc : (decide (p = "") || !s.disk p) = false := by
                simp [hp0, hdp]
              rw [download_file_success_eq hf hc] at hnf
              exact FetchResult.noConfusion hnf
    · intro hcase
      rcases hcase with hf | ⟨p, hf, hdp⟩
      · rw [download_file_no_entry hf]
      · have hc : (decide (p = "") || !s.disk p) = true := by simp [hdp]
        simp [download_file, hf, hc]
  · intro p hf hdp
    have hp0 : p ≠ "" := by
      intro hpe
      rw [hpe, hd] at hdp
      exact Bool.noConfusion hdp
    have hc : (decide (p = "") || !s.disk p) = false := by simp [hp0, hdp]
    have heq := download_file_success_eq hf hc
    refine ⟨by rw [heq], by rw [heq]; exact Store.pop_self _ _,
      by rw [heq]; exact Store.pop_self _ _, ?_⟩
    rw [heq]
    rw [download_file_no_entry (Store.pop_self s.file_store t)]

/-- C4 witness: fetching a completed task returns its file; fetching again
404s. -/
theorem C4_witness :
    (download_file doneState "t").1
        = FetchResult.file "/tmp/downloads/t_v.mp4" (basename "/tmp/downloads/t_v.mp4")
  ∧ (download_file (download_file doneState "t").2 "t").1 = FetchResult.notFound :=
  ⟨((C4_fetch_404_iff_and_single_delivery doneState "t" (by decide)).2
      "/tmp/downloads/t_v.mp4" (by decide) (by decide)).1,
   ((C4_fetch_404_iff_and_single_delivery doneState "t" (by decide)).2
      "/tmp/downloads/t_v.mp4" (by decide) (by decide)).2.2.2⟩

/-- C5 (amended): while `"downloading"`, a parsed percent is stored and a
parse failure retains the previous value; on `"finished"` progress is set
to `99`; the completion step of `start_download` stores `100`.  (The
original claim that `100` is stored only at completion fails: a
`"downloading"` hook whose percent parses to `100` also stores `100` —
see the counterexample.) -/
theorem C5_hook_contract (t : String) (d : HookDict) (ps : Store ℚ) (v : ℚ) :
    (d.status = "downloading" → pyFloat (percentClean d) = some v →
        hook t d ps t = some v)
  ∧ (d.status = "downloading" → pyFloat (percentClean d) = none →
        ps t = some v → hook t d ps t = some v)
  ∧ (d.status = "finished" → hook t d ps t = some 99)
  ∧ (∀ s p, (step s (Event.complete t p)).progress_store t = some 100) :=
  ⟨fun hs hp => hook_downloading_parsed ps hs hp,
   fun hs hp hv => hook_downloading_failed hs hp hv,
   fun hs => hook_finished ps hs,
   fun _ _ => Store.set_self _ _ _⟩

/-- C5 witness: parsed percent stored; unparseable percent retained;
finished pins `99`; completion stores `100`. -/
theorem C5_witness :
    hook "t" ⟨"downloading", some " 42%"⟩ Store.empty "t" = some 42
  ∧ hook "t" ⟨"downloading", some "NA%"⟩ (Store.empty.set "t" 7) "t" = some 7
  ∧ hook "t" ⟨"finished", none⟩ Store.empty "t" = some 99
  ∧ (step (Sys.init fun _ => false)
      (Event.complete "t" "/tmp/downloads/t_v.mp4")).progress_store "t" = some 100 :=
  ⟨(C5_hook_contract "t" ⟨"downloading", some " 42%"⟩ Store.empty 42).1 rfl (by decide),
   (C5_hook_contract "t" ⟨"downloading", some "NA%"⟩ (Store.empty.set "t" 7) 7).2.1
      rfl (by decide) (by decide),
   (C5_hook_contract "t" ⟨"finished", none⟩ Store.empty 99).2.2.1 rfl,
   (C5_hook_contract "t" ⟨"finished", none⟩ Store.empty 0).2.2.2
      (Sys.init fun _ => false) "/tmp/downloads/t_v.mp4"⟩

/-- C5 counterexample: a `"downloading"` hook whose percent string parses
to `100` stores progress `100` although the operation has not completed
(the task is still in the running phase on a well-formed trace). -/
theorem C5_counterexample :
    hook "t" ⟨"downloading", some "100%"⟩ (Store.empty.set "t" 50) "t" = some 100
  ∧ (∃ Q, Wf allIdle
      [Event.submit "u", Event.hookEv "u" ⟨"downloading", some "100%"⟩] Q ∧
      Q "u" = Phase.running)
  ∧ (run (Sys.init fun _ => false)
      [Event.submit "u", Event.hookEv "u" ⟨"downloading", some "100%"⟩]).progress_store "u"
        = some 100 :=
  ⟨by decide, ⟨_, Wf.cons rfl (Wf.cons rfl (Wf.nil _)), rfl⟩, by decide⟩

/-- C6: for video requests the format selector caps height at 1080 exactly
for quality `"1080"`, at 720 exactly for quality `"720"`, and is the
uncapped `bestvideo+bestaudio/best` for every other quality value. -/
theorem C6_video_quality_caps (t : String) (r : DownloadRequest)
    (hv : r.type = "video") :
    ((build_opts t r).format = "bestvideo[height<=1080]+bestaudio/best" ↔
        r.quality = "1080")
  ∧ ((build_opts t r).format = "bestvideo[height<=720]+bestaudio/best" ↔
        r.quality = "720")
  ∧ (r.quality ≠ "1080" → r.quality ≠ "720" →
        (build_opts t r).format = "bestvideo+bestaudio/best") := by
  have hfmt : (build_opts t r).format =
      if r.quality = "1080" then "bestvideo[height<=1080]+bestaudio/best"
      else if r.quality = "720" then "bestvideo[height<=720]+bestaudio/best"
      else "bestvideo+bestaudio/best" := by
    simp [build_opts, hv]
  rw [hfmt]
  by_cases h1 : r.quality = "1080"
  · rw [if_pos h1]
    refine ⟨⟨fun _ => h1, fun _ => rfl⟩, ⟨?_, ?_⟩, ?_⟩
    · intro hh; exact absurd hh (by decide)
    · intro hh; rw [h1] at hh; exact absurd hh (by decide)
    · intro hn _; exact absurd h1 hn
  · rw [if_neg h1]
    by_cases h2 : r.quality = "720"
    · rw [if_pos h2]
      refine ⟨⟨?_, ?_⟩, ⟨fun _ => h2, fun _ => rfl⟩, ?_⟩
      · intro hh; exact absurd hh (by decide)
      · intro hh; rw [h2] at hh; exact absurd hh (by decide)
      · intro _ hn; exact absurd h2 hn
    · rw [if_neg h2]
      refine ⟨⟨?_, ?_⟩, ⟨?_, ?_⟩, fun _ _ => rfl⟩
      · intro hh; exact absurd hh (by decide)
      · intro hh; exact absurd hh h1
      · intro hh; exact absurd hh (by decide)
      · intro hh; exact absurd hh h2

/-- C6 witness: the three quality values yield their three selectors. -/
theorem C6_witness :
    (build_opts "t" ⟨"https://example.com/v", "video", "1080"⟩).format
        = "bestvideo[height<=1080]+bestaudio/best"
  ∧ (build_opts "t" ⟨"https://example.com/v", "video", "720"⟩).format
        = "bestvideo[height<=720]+bestaudio/best"
  ∧ (build_opts "t" ⟨"https://example.com/v", "video", "best"⟩).format
        = "bestvideo+bestaudio/best" :=
  ⟨(C6_video_quality_caps "t" ⟨"https://example.com/v", "video", "1080"⟩ rfl).1.mpr rfl,
   (C6_video_quality_caps "t" ⟨"https://example.com/v", "video", "720"⟩ rfl).2.1.mpr rfl,
   (C6_video_quality_caps "t" ⟨"https://example.com/v", "video", "best"⟩ rfl).2.2
      (by decide) (by decide)⟩

/-- C7: every request whose type is not `"video"` takes the audio branch:
format `bestaudio/best`, one mp3 extraction postprocessor with the quality
string passed through unchanged, and a recorded final path of the form
`base ++ ".mp3"`. -/
theorem C7_non_video_takes_audio_branch (t : String) (r : DownloadRequest)
    (prepared : String) (hv : r.type ≠ "video") :
    (build_opts t r).format = "bestaudio/best"
  ∧ (build_opts t r).postprocessors =
      [{ key := "FFmpegExtractAudio", preferredcodec := "mp3",
         preferredquality := r.quality }]
  ∧ final_path r prepared = splitext_root prepared ++ ".mp3"
  ∧ (∀ s, (step s (Event.complete t (final_path r prepared))).file_store t
        = some (splitext_root prepared ++ ".mp3")) := by
  have h3 : final_path r prepared = splitext_root prepared ++ ".mp3" := by
    simp [final_path, hv]
  refine ⟨by simp [build_opts, hv], by simp [build_opts, hv], h3, ?_⟩
  intro s
  rw [← h3]
  exact Store.set_self _ _ _

/-- C7 witness: an audio request and a request with an invalid type both
take the audio branch. -/
theorem C7_witness :
    (build_opts "t" ⟨"https://example.com/v", "audio", "192"⟩).format = "bestaudio/best"
  ∧ (build_opts "t" ⟨"https://example.com/v", "audio", "192"⟩).postprocessors =
      [{ key := "FFmpegExtractAudio", preferredcodec := "mp3",
         preferredquality := "192" }]
  ∧ final_path ⟨"https://example.com/v", "audio", "192"⟩ "/tmp/downloads/t_v.webm"
      = splitext_root "/tmp/downloads/t_v.webm" ++ ".mp3"
  ∧ (build_opts "t" ⟨"https://example.com/v", "playlist", "x"⟩).format
      = "bestaudio/best" :=
  ⟨(C7_non_video_takes_audio_branch "t" ⟨"https://example.com/v", "audio", "192"⟩
      "/tmp/downloads/t_v.webm" (by decide)).1,
   (C7_non_video_takes_audio_branch "t" ⟨"https://example.com/v", "audio", "192"⟩
      "/tmp/downloads/t_v.webm" (by decide)).2.1,
   (C7_non_video_takes_audio_branch "t" ⟨"https://example.com/v", "audio", "192"⟩
      "/tmp/downloads/t_v.webm" (by decide)).2.2.1,
   (C7_non_video_takes_audio_branch "t" ⟨"https://example.com/v", "playlist", "x"⟩
      "/tmp/downloads/t_v.webm" (by decide)).1⟩

/-- C8 (amended): `safe_filename` replaces every occurrence of the
characters `\ / : * ? " < > |` with an underscore and changes nothing else
(same length, characterwise); however it is never invoked on the final
stored path, which records the library-produced filename verbatim — see
the counterexample. -/
theorem C8_sanitizer_behavior_but_unused (name : String) (s : Sys) (t : String)
    (req : DownloadRequest) (prepared : String) :
    (safe_filename name).toList.length = name.toList.length
  ∧ (∀ i, (safe_filename name).toList.getD i ' ' =
        if badChar (name.toList.getD i ' ') then '_' else name.toList.getD i ' ')
  ∧ (step s (Event.complete t (final_path req prepared))).file_store t
        = some (final_path req prepared) := by
  refine ⟨by simp [safe_filename], ?_, Store.set_self _ _ _⟩
  intro i
  show ((name.toList.map fun c => if badChar c then '_' else c).getD i ' ') = _
  rw [List.getD_eq_getElem?_getD, List.getD_eq_getElem?_getD, List.getElem?_map]
  cases name.toList[i]? with
  | none => rfl
  | some c => rfl

/-- C8 witness: sanitization at work on a concrete name, and verbatim
recording of a concrete final path. -/
theorem C8_witness :
    (safe_filename "a?b").toList.length = ("a?b" : String).toList.length
  ∧ (safe_filename "a?b").toList.getD 1 ' ' =
      (if badChar (("a?b" : String).toList.getD 1 ' ') then '_'
       else ("a?b" : String).toList.getD 1 ' ')
  ∧ (step doneState (Event.complete "t"
        (final_path ⟨"https://example.com/v", "audio", "192"⟩
          "/tmp/downloads/t_v.webm"))).file_store "t"
      = some (final_path ⟨"https://example.com/v", "audio", "192"⟩
          "/tmp/downloads/t_v.webm") :=
  ⟨(C8_sanitizer_behavior_but_unused "a?b" doneState "t"
      ⟨"https://example.com/v", "audio", "192"⟩ "/tmp/downloads/t_v.webm").1,
   (C8_sanitizer_behavior_but_unused "a?b" doneState "t"
      ⟨"https://example.com/v", "audio", "192"⟩ "/tmp/downloads/t_v.webm").2.1 1,
   (C8_sanitizer_behavior_but_unused "a?b" doneState "t"
      ⟨"https://example.com/v", "audio", "192"⟩ "/tmp/downloads/t_v.webm").2.2⟩

/-- C8 counterexample: for a library filename whose title part contains
`?`, the final stored path keeps the `?`, while no output of
`safe_filename` ever contains `?` — so the sanitization was not applied to
the stored path. -/
theorem C8_counterexample :
    final_path ⟨"https://example.com/v", "video", "best"⟩ "/tmp/downloads/t1_a?b.webm"
        = "/tmp/downloads/t1_a?b.mp4"
  ∧ '?' ∈ ("/tmp/downloads/t1_a?b.mp4" : String).toList
  ∧ (∀ nm, '?' ∉ (safe_filename nm).toList) := by
  refine ⟨by decide, by decide, ?_⟩
  intro nm hmem
  have hmem' : '?' ∈ nm.toList.map (fun c => if badChar c then '_' else c) := hmem
  rcases List.mem_map.mp hmem' with ⟨c, _, hc⟩
  by_cases hb : badChar c = true
  · rw [if_pos hb] at hc
    exact absurd hc (by decide)
  · rw [if_neg hb] at hc
    rw [hc] at hb
    exact hb (by decide)

/-- C9: a `"downloading"` hook invocation without a `"_percent_str"` key
stores progress `0`, whatever was stored before (the default `"0%"` cleans
to `"0"`, which parses to `0.0`). -/
theorem C9_missing_percent_stores_zero (t : String) (ps : Store ℚ) :
    hook t ⟨"downloading", none⟩ ps t = some 0 :=
  hook_downloading_parsed ps rfl (by decide)

/-- C9 witness: the stored `97` is overwritten by `0`. -/
theorem C9_witness :
    hook "t" ⟨"downloading", none⟩ (Store.empty.set "t" 97) "t" = some 0 :=
  C9_missing_percent_stores_zero "t" (Store.empty.set "t" 97)

/-- C10: after a successful fetch the progress entry is gone, so polling
the fetched id returns `0`, exactly as the poll endpoint answers for any
unknown id. -/
theorem C10_fetch_clears_then_poll_zero (s : Sys) (t : String)
    (h : (download_file s t).1 ≠ FetchResult.notFound) :
    (download_file s t).2.progress_store t = none
  ∧ progressEndpoint (download_file s t).2 t = 0
  ∧ (∀ s0 u, s0.progress_store u = none → progressEndpoint s0 u = 0) := by
  rcases download_file_success h with ⟨p, hf, hc, heq⟩
  refine ⟨by rw [heq]; exact Store.pop_self _ _, ?_, ?_⟩
  · rw [heq]
    show ((s.progress_store.pop t) t).getD 0 = 0
    rw [Store.pop_self]
    rfl
  · intro s0 u h0
    show ((s0.progress_store u)).getD 0 = 0
    rw [h0]
    rfl

/-- C10 witness: fetch the completed task, then poll it: `0`. -/
theorem C10_witness :
    (download_file doneState "t").2.progress_store "t" = none
  ∧ progressEndpoint (download_file doneState "t").2 "t" = 0 :=
  ⟨(C10_fetch_clears_then_poll_zero doneState "t" (by decide)).1,
   (C10_fetch_clears_then_poll_zero doneState "t" (by decide)).2.1⟩

end YtApi
